import Mathlib

/-!
Shallow embedding of the EduMarket booking backend.

The repository has two variants of the same Express service:
* `server-simple.js` — in-memory arrays `lessons` / `orders` as the database;
  every request handler is synchronous, so a handler runs atomically.
* `server.js` — MongoDB collections; the order handler performs its store
  accesses through separate `await`ed calls.

The embedding below translates the request handlers into pure functions over
an explicit server state.  HTTP wiring, logging, CORS, static files and the
health endpoint carry no state and are not modelled; `createdAt` (wall-clock
time) is omitted from `Order`.
-/

namespace EduMarket

/-- A catalog entry as stored by the in-memory backend (`server-simple.js`,
`initializeData`): `{_id, subject, location, price, space, image}`.
`price` and `space` are `Int`: the booking handler updates `space` by
unchecked subtraction (`lesson.space -= lessonOrder.quantity`), so the
embedding must be able to represent negative values. -/
structure Lesson where
  _id : Nat
  subject : String
  location : String
  price : Int
  space : Int
  image : String
deriving Repr, DecidableEq

/-- One `{lessonId, quantity}` pair of a POST /orders body.  `quantity` is an
`Int` because the handler never checks positivity. -/
structure LineItem where
  lessonId : Nat
  quantity : Int
deriving Repr, DecidableEq

/-- The POST /orders body `{name, phone, lessons}`.  `none` models an absent
field (JSON `undefined`); a present non-array `lessons` value is rejected by
the handler's `Array.isArray` test exactly like an absent one, so the typed
model folds it into `none`. -/
structure OrderReq where
  name : Option String
  phone : Option String
  lessons : Option (List LineItem)
deriving Repr, DecidableEq

/-- An order record as pushed onto the in-memory `orders` array
(`createdAt` omitted: wall-clock time). -/
structure Order where
  _id : Nat
  name : String
  phone : String
  lessons : List LineItem
  totalAmount : Int
  status : String
deriving Repr, DecidableEq

/-- The in-memory database of `server-simple.js`: the `lessons` and `orders`
arrays plus the `nextOrderId` counter. -/
structure ServerState where
  lessons : List Lesson
  orders : List Order
  nextOrderId : Nat
deriving Repr, DecidableEq

/-- JS falsiness of an optional string value: `undefined` and `""` are falsy
(used by `if (!name)` etc.). -/
def strFalsy : Option String → Bool
  | none => true
  | some s => s.isEmpty

/-- Members of the JS regex class `\s` restricted to ASCII control/space
characters (the request bodies of interest are ASCII). -/
def isJsSpace (c : Char) : Bool :=
  c = ' ' || c = '\t' || c = '\n' || c = '\r' || c = '\x0b' || c = '\x0c'

/-- `/^[a-zA-Z\s]+$/.test s`: non-empty, every character a letter or
whitespace. -/
def testNameRegex (s : String) : Bool :=
  !s.isEmpty && s.toList.all (fun c => c.isAlpha || isJsSpace c)

/-- `/^[0-9]+$/.test s`: non-empty, every character a decimal digit. -/
def testPhoneRegex (s : String) : Bool :=
  !s.isEmpty && s.toList.all Char.isDigit

/-- `lessons.find(l => l._id == id)`: first catalog entry with the given id. -/
def findLesson (cat : List Lesson) (id : Nat) : Option Lesson :=
  cat.find? (fun l => l._id == id)

/-- Outcome of POST /orders: HTTP 400, 404 or 201 with the new order id and
total. -/
inductive OrderResult where
  | badRequest (msg : String)
  | notFound (msg : String)
  | created (orderId : Nat) (totalAmount : Int)
deriving Repr, DecidableEq

/-- The validation loop of POST /orders (`server-simple.js` lines 242-260):
walk the line items in order; a missing lesson id yields 404, an item whose
quantity exceeds the lesson's current space yields 400, otherwise
`price * quantity` is accumulated into the total.  The loop reads the catalog
and never mutates it. -/
def checkItems (cat : List Lesson) : List LineItem → Except OrderResult Int
  | [] => .ok 0
  | it :: rest =>
    match findLesson cat it.lessonId with
    | none =>
      .error (.notFound ("Lesson with ID " ++ toString it.lessonId ++ " not found"))
    | some l =>
      if l.space < it.quantity then
        .error (.badRequest ("Not enough spaces available for " ++ l.subject ++
          " in " ++ l.location))
      else
        match checkItems cat rest with
        | .error e => .error e
        | .ok t => .ok (l.price * it.quantity + t)

/-- `lessons.find(l => l._id == id)` followed by `lesson.space -= q` mutates
the first matching array element in place; if no element matches
(`if (lesson)` guard) nothing happens. -/
def updateFirst : List Lesson → Nat → Int → List Lesson
  | [], _, _ => []
  | l :: ls, id, q =>
    if l._id == id then { l with space := l.space - q } :: ls
    else l :: updateFirst ls id q

/-- The space-update loop of POST /orders (`server-simple.js` lines 277-282):
for each line item in order, decrement the matched lesson's space by the
item's quantity. -/
def decrementSpaces (cat : List Lesson) : List LineItem → List Lesson
  | [] => cat
  | it :: rest => decrementSpaces (updateFirst cat it.lessonId it.quantity) rest

/-- The POST /orders handler of `server-simple.js` (lines 211-299):
presence check, name regex, phone regex, per-item availability check, then
order creation (`_id = nextOrderId++`, push) and the space-decrement loop. -/
def createOrder (st : ServerState) (req : OrderReq) : ServerState × OrderResult :=
  if strFalsy req.name || strFalsy req.phone || req.lessons.isNone then
    (st, .badRequest "Name, phone, and lessons array are required")
  else
    let name := req.name.getD ""
    let phone := req.phone.getD ""
    let items := req.lessons.getD []
    if !testNameRegex name then
      (st, .badRequest "Name must contain only letters and spaces")
    else if !testPhoneRegex phone then
      (st, .badRequest "Phone must contain only numbers")
    else
      match checkItems st.lessons items with
      | .error e => (st, e)
      | .ok total =>
        let order : Order :=
          { _id := st.nextOrderId, name := name, phone := phone,
            lessons := items, totalAmount := total, status := "confirmed" }
        ({ lessons := decrementSpaces st.lessons items,
           orders := st.orders ++ [order],
           nextOrderId := st.nextOrderId + 1 },
         .created order._id total)

/-- Space of the (first) lesson with a given id, `none` when the id is
absent from the catalog. -/
def spaceOf (cat : List Lesson) (id : Nat) : Option Int :=
  (findLesson cat id).map Lesson.space

end EduMarket
namespace EduMarket

/-- Total the spec prescribes for an order: sum over the line items of the
referenced lesson's price (in the given catalog) times the quantity. -/
def specTotal (cat : List Lesson) (items : List LineItem) : Int :=
  (items.map (fun it =>
    ((findLesson cat it.lessonId).map (fun l => l.price * it.quantity)).getD 0)).sum

/-- Sum of the quantities of all line items naming a given lesson id. -/
def sumQty (id : Nat) (items : List LineItem) : Int :=
  ((items.filter (fun it => it.lessonId == id)).map LineItem.quantity).sum

theorem checkItems_ok_total (cat : List Lesson) (items : List LineItem) (t : Int)
    (h : checkItems cat items = .ok t) : t = specTotal cat items := by
  induction items generalizing t with
  | nil =>
    simp only [checkItems] at h
    cases h
    simp [specTotal]
  | cons it rest ih =>
    simp only [checkItems] at h
    cases hf : findLesson cat it.lessonId with
    | none => rw [hf] at h; cases h
    | some l =>
      rw [hf] at h
      by_cases hs : l.space < it.quantity
      · simp [hs] at h
      · simp only [hs, if_false, if_neg hs] at h
        cases hc : checkItems cat rest with
        | error e => rw [hc] at h; cases h
        | ok t0 =>
          rw [hc] at h
          cases h
          simp [specTotal, hf, ih t0 hc, specTotal]

theorem checkItems_isOk_iff (cat : List Lesson) (items : List LineItem) :
    (∃ t, checkItems cat items = .ok t) ↔
      ∀ it ∈ items, ∃ l, findLesson cat it.lessonId = some l ∧ it.quantity ≤ l.space := by
  induction items with
  | nil => simp [checkItems]
  | cons it rest ih =>
    constructor
    · rintro ⟨t, h⟩ x hx
      simp only [checkItems] at h
      cases hf : findLesson cat it.lessonId with
      | none => rw [hf] at h; cases h
      | some l =>
        rw [hf] at h
        by_cases hs : l.space < it.quantity
        · simp [hs] at h
        · simp only [hs, if_neg hs] at h
          cases hc : checkItems cat rest with
          | error e => rw [hc] at h; cases h
          | ok t0 =>
            rcases List.mem_cons.mp hx with rfl | hxr
            · exact ⟨l, hf, le_of_not_lt hs⟩
            · exact ih.mp ⟨t0, hc⟩ x hxr
    · intro h
      obtain ⟨l, hf, hle⟩ := h it (List.mem_cons_self it rest)
      obtain ⟨t0, hc⟩ := ih.mpr (fun x hx => h x (List.mem_cons_of_mem it hx))
      exact ⟨l.price * it.quantity + t0, by
        simp [checkItems, hf, hc, not_lt.mpr hle]⟩

theorem checkItems_error_of_bad (cat : List Lesson) (items : List LineItem)
    (h : ∃ it ∈ items, findLesson cat it.lessonId = none ∨
          ∃ l, findLesson cat it.lessonId = some l ∧ l.space < it.quantity) :
    ∃ e, checkItems cat items = .error e := by
  by_contra hno
  push_neg at hno
  obtain ⟨it, hmem, hbad⟩ := h
  have hok : ∃ t, checkItems cat items = .ok t := by
    cases hc : checkItems cat items with
    | error e => exact absurd hc (hno e)
    | ok t => exact ⟨t, rfl⟩
  obtain ⟨l, hf, hle⟩ := (checkItems_isOk_iff cat items).mp hok it hmem
  rcases hbad with hnone | ⟨l2, hf2, hs2⟩
  · rw [hf] at hnone; cases hnone
  · rw [hf] at hf2; cases hf2; omega

end EduMarket
namespace EduMarket

theorem findLesson_updateFirst (cat : List Lesson) (jd : Nat) (q : Int) (i : Nat) :
    findLesson (updateFirst cat jd q) i =
      if i = jd then (findLesson cat jd).map (fun l => { l with space := l.space - q })
      else findLesson cat i := by
  induction cat with
  | nil => simp [findLesson, updateFirst]
  | cons l ls ih =>
    simp only [findLesson] at ih ⊢
    by_cases hlj : l._id = jd
    · by_cases hij : i = jd
      · subst hij
        simp [updateFirst, List.find?_cons, hlj]
      · have hli : l._id ≠ i := fun h => hij ((h.symm.trans hlj))
        have hji : (jd == i) = false := beq_eq_false_iff_ne.mpr (fun h => hij h.symm)
        simp [updateFirst, List.find?_cons, hlj, hli, hij, hji]
    · by_cases hij : i = jd
      · subst hij
        simp [updateFirst, List.find?_cons, hlj, ih]
      · by_cases hli : l._id = i
        · simp [updateFirst, List.find?_cons, hlj, hli, hij]
        · simp [updateFirst, List.find?_cons, hlj, hli, hij, ih]

theorem spaceOf_decrementSpaces (cat : List Lesson) (items : List LineItem) (i : Nat) :
    spaceOf (decrementSpaces cat items) i =
      (spaceOf cat i).map (fun s => s - sumQty i items) := by
  induction items generalizing cat with
  | nil =>
    cases h : findLesson cat i <;> simp [decrementSpaces, sumQty, spaceOf, h]
  | cons it rest ih =>
    simp only [decrementSpaces]
    rw [ih]
    simp only [spaceOf, findLesson_updateFirst]
    by_cases hij : i = it.lessonId
    · rw [if_pos hij, hij]
      have hq : sumQty it.lessonId (it :: rest) = it.quantity + sumQty it.lessonId rest := by
        simp [sumQty, List.filter_cons]
      cases h : findLesson cat it.lessonId <;> simp [h, hq, sub_sub]
    · rw [if_neg hij]
      have hne : (it.lessonId == i) = false := beq_eq_false_iff_ne.mpr (fun h => hij h.symm)
      have hq : sumQty i (it :: rest) = sumQty i rest := by
        simp [sumQty, List.filter_cons, hne]
      rw [hq]

end EduMarket
namespace EduMarket

theorem checkItems_error_not_created (cat : List Lesson) (items : List LineItem)
    (e : OrderResult) (h : checkItems cat items = .error e) :
    ∀ oid t, e ≠ .created oid t := by
  induction items with
  | nil => simp [checkItems] at h
  | cons it rest ih =>
    intro oid t
    simp only [checkItems] at h
    split at h
    · cases h; simp
    · split at h
      · cases h; simp
      · split at h
        · rename_i e2 hc
          cases h
          exact ih hc oid t
        · cases h

/-- The Mathematics/Hendon sample lesson of `initializeData`, down to its
last remaining space. -/
def mathHendonOne : Lesson :=
  { _id := 1, subject := "Mathematics", location := "Hendon",
    price := 100, space := 1, image := "math-hendon.jpg" }

/-- The Mathematics/Colindale sample lesson of `initializeData` (space 2). -/
def mathColindale : Lesson :=
  { _id := 2, subject := "Mathematics", location := "Colindale",
    price := 80, space := 2, image := "math-colindale.jpg" }

/-- Server state with the single lesson `mathHendonOne`. -/
def oneSpaceState : ServerState :=
  { lessons := [mathHendonOne], orders := [], nextOrderId := 1 }

/-- Server state with lessons `mathHendonOne` and `mathColindale`. -/
def twoLessonState : ServerState :=
  { lessons := [mathHendonOne, mathColindale], orders := [], nextOrderId := 1 }

/-- A valid-looking booking whose two line items both name lesson 1 with
quantity 1. -/
def dupItemsReq : OrderReq :=
  { name := some "Tom", phone := some "123", lessons := some [⟨1, 1⟩, ⟨1, 1⟩] }

/-- A booking with an empty line-item array. -/
def emptyItemsReq : OrderReq :=
  { name := some "Tom", phone := some "123", lessons := some [] }

/-- A booking whose first item fits (quantity 1 ≤ space 1 of lesson 1) and
whose second item does not (quantity 10 > space 2 of lesson 2). -/
def failSecondReq : OrderReq :=
  { name := some "Tom", phone := some "123", lessons := some [⟨1, 1⟩, ⟨2, 10⟩] }

/-- A well-formed single-item booking of lesson 1. -/
def okReq : OrderReq :=
  { name := some "Ann", phone := some "99", lessons := some [⟨1, 1⟩] }

/-- A booking whose phone fails `/^[0-9]+$/`. -/
def badPhoneReq : OrderReq :=
  { name := some "Tom", phone := some "12a", lessons := some [⟨1, 1⟩] }

/-- C1: the spec invariant `space ≥ 0` fails on the code: a single POST
/orders whose line items repeat lessonId 1 (quantity 1 each) against a
catalog where lesson 1 has one space left is accepted by the per-item check
loop (each item is compared against the unmutated space) and the update loop
then drives the lesson's space to -1. -/
theorem createOrder_duplicate_items_negative_space :
    (createOrder oneSpaceState dupItemsReq).2 = .created 1 200 ∧
    spaceOf (createOrder oneSpaceState dupItemsReq).1.lessons 1 = some (-1) := by
  constructor <;> decide

/-- C2: a booking in which some line item fails (unknown lessonId, or
quantity exceeding the lesson's current space) leaves the whole server state
— in particular every lesson's space and the orders array — exactly as it
was, and produces no created order: the check loop precedes every mutation. -/
theorem createOrder_failed_item_state_unchanged (st : ServerState) (req : OrderReq)
    (items : List LineItem) (hits : req.lessons = some items)
    (h : ∃ it ∈ items, findLesson st.lessons it.lessonId = none ∨
          ∃ l, findLesson st.lessons it.lessonId = some l ∧ l.space < it.quantity) :
    (createOrder st req).1 = st ∧
      ∀ oid t, (createOrder st req).2 ≠ .created oid t := by
  obtain ⟨e, he⟩ := checkItems_error_of_bad st.lessons items h
  have hnc := checkItems_error_not_created st.lessons items e he
  simp only [createOrder, hits, Option.isNone_some, Bool.or_false, Option.getD_some, he]
  constructor
  · split
    · rfl
    · split
      · rfl
      · split
        · rfl
        · rfl
  · intro oid t
    split
    · simp
    · split
      · simp
      · split
        · simp
        · exact hnc oid t

/-- Witness for C2: first item reserves lesson 1 successfully in the source's
sense (1 ≤ 1), second asks for 10 of lesson 2 which has 2; the state is
untouched. -/
theorem createOrder_failed_item_state_unchanged_witness :
    (createOrder twoLessonState failSecondReq).1 = twoLessonState ∧
      ∀ oid t, (createOrder twoLessonState failSecondReq).2 ≠ .created oid t :=
  createOrder_failed_item_state_unchanged twoLessonState failSecondReq
    [⟨1, 1⟩, ⟨2, 10⟩] rfl
    ⟨⟨2, 10⟩, by decide, Or.inr ⟨mathColindale, by decide, by decide⟩⟩

end EduMarket
namespace EduMarket

/-- C3 counterexample: a booking with valid name and phone and an EMPTY
line-item array is not rejected: the handler's presence check only tests
`Array.isArray`, the check loop over zero items trivially passes, and a
confirmed order with `totalAmount = 0` is appended to the orders array. -/
theorem createOrder_accepts_empty_lineItems :
    (createOrder oneSpaceState emptyItemsReq).2 = .created 1 0 ∧
    (createOrder oneSpaceState emptyItemsReq).1.orders =
      [{ _id := 1, name := "Tom", phone := "123", lessons := [],
         totalAmount := 0, status := "confirmed" }] := by
  constructor <;> decide

/-- C3 amended: if the customer name fails `/^[a-zA-Z\s]+$/`, or the phone
fails `/^[0-9]+$/`, or the `lessons` field is absent/non-array, POST /orders
answers 400 and the server state is untouched (the rejection happens before
the lesson loop).  Empty line-item arrays and quantities ≤ 0 are NOT
rejected by the code. -/
theorem createOrder_rejects_bad_name_or_phone (st : ServerState) (req : OrderReq)
    (h : testNameRegex (req.name.getD "") = false ∨
         testPhoneRegex (req.phone.getD "") = false ∨ req.lessons = none) :
    (createOrder st req).1 = st ∧ ∃ m, (createOrder st req).2 = .badRequest m := by
  by_cases h1 : (strFalsy req.name || strFalsy req.phone || req.lessons.isNone) = true
  · simp [createOrder, h1]
  · have h1f : (strFalsy req.name || strFalsy req.phone || req.lessons.isNone) = false :=
      Bool.not_eq_true _ ▸ Bool.of_not_eq_true h1
    have hln : req.lessons ≠ none := by
      intro hn
      rw [hn] at h1f
      simp at h1f
    by_cases hn : testNameRegex (req.name.getD "") = false
    · simp [createOrder, h1f, hn]
    · have hn2 : testNameRegex (req.name.getD "") = true :=
        Bool.of_not_eq_false hn
      have hp : testPhoneRegex (req.phone.getD "") = false := by
        rcases h with ha | hb | hc
        · exact absurd ha hn
        · exact hb
        · exact absurd hc hln
      simp [createOrder, h1f, hn2, hp]

/-- Witness for the amended C3: a request whose phone "12a" fails the digit
regex is rejected with a 400 and the state is unchanged. -/
theorem createOrder_rejects_bad_name_or_phone_witness :
    (createOrder oneSpaceState badPhoneReq).1 = oneSpaceState ∧
    ∃ m, (createOrder oneSpaceState badPhoneReq).2 = .badRequest m :=
  createOrder_rejects_bad_name_or_phone oneSpaceState badPhoneReq
    (Or.inr (Or.inl (by decide)))

/-- C4: every successfully created order's `totalAmount` equals the sum over
its line items of the referenced lesson's price (as read from the pre-call
catalog — the check loop performs no mutation, so the price at the moment an
item is checked is the pre-call price) times the item's quantity. -/
theorem createOrder_totalAmount_spec (st st' : ServerState) (req : OrderReq)
    (oid : Nat) (t : Int)
    (h : createOrder st req = (st', .created oid t)) :
    t = specTotal st.lessons (req.lessons.getD []) := by
  simp only [createOrder] at h
  split at h
  · simp at h
  · split at h
    · simp at h
    · split at h
      · simp at h
      · split at h
        · rename_i e hc
          have := checkItems_error_not_created _ _ _ hc
          simp only [Prod.mk.injEq] at h
          exact absurd h.2 (this oid t)
        · rename_i total hc
          simp only [Prod.mk.injEq, OrderResult.created.injEq] at h
          obtain ⟨-, -, ht⟩ := h
          exact ht ▸ checkItems_ok_total _ _ _ hc

/-- Witness for C4: booking one unit of lesson 1 (price 100) yields total
100, which equals the spec's sum. -/
theorem createOrder_totalAmount_spec_witness :
    (100 : Int) = specTotal oneSpaceState.lessons (okReq.lessons.getD []) :=
  createOrder_totalAmount_spec oneSpaceState
    { lessons := [{ mathHendonOne with space := 0 }],
      orders := [{ _id := 1, name := "Ann", phone := "99", lessons := [⟨1, 1⟩],
                   totalAmount := 100, status := "confirmed" }],
      nextOrderId := 2 }
    okReq 1 100 (by decide)

end EduMarket
namespace EduMarket

/-- C10: in POST /orders each line item's availability check compares only
that item's own quantity against the catalog space as read before any
mutation (quantities of other items naming the same lesson are not
aggregated into the check), while on success each lesson's space is
decreased by the sum of the quantities of all line items naming it. -/
theorem createOrder_per_item_check_aggregate_decrement (st : ServerState)
    (req : OrderReq) (items : List LineItem) (hits : req.lessons = some items)
    (hname : testNameRegex (req.name.getD "") = true)
    (hphone : testPhoneRegex (req.phone.getD "") = true) :
    ((∃ st2 oid t, createOrder st req = (st2, .created oid t)) ↔
       ∀ it ∈ items, ∃ l, findLesson st.lessons it.lessonId = some l ∧
         it.quantity ≤ l.space) ∧
    ∀ st2 oid t, createOrder st req = (st2, .created oid t) →
      ∀ i, spaceOf st2.lessons i =
        (spaceOf st.lessons i).map (fun s => s - sumQty i items) := by
  have hnf : strFalsy req.name = false := by
    cases hv : req.name with
    | none => rw [hv] at hname; exact absurd hname (by decide)
    | some s =>
      rw [hv] at hname
      simp only [Option.getD_some] at hname
      simp only [testNameRegex, Bool.and_eq_true] at hname
      simpa [strFalsy] using hname.1
  have hpf : strFalsy req.phone = false := by
    cases hv : req.phone with
    | none => rw [hv] at hphone; exact absurd hphone (by decide)
    | some s =>
      rw [hv] at hphone
      simp only [Option.getD_some] at hphone
      simp only [testPhoneRegex, Bool.and_eq_true] at hphone
      simpa [strFalsy] using hphone.1
  have hred : createOrder st req =
      match checkItems st.lessons items with
      | .error e => (st, e)
      | .ok total =>
        (({ lessons := decrementSpaces st.lessons items,
            orders := st.orders ++
              [({ _id := st.nextOrderId, name := req.name.getD "", phone := req.phone.getD "", lessons := items, totalAmount := total, status := "confirmed" } : Order)],
            nextOrderId := st.nextOrderId + 1 } : ServerState),
         OrderResult.created st.nextOrderId total) := by
    simp [createOrder, hits, hnf, hpf, hname, hphone]
  constructor
  · constructor
    · rintro ⟨st2, oid, t, hco⟩
      rw [hred] at hco
      refine (checkItems_isOk_iff st.lessons items).mp ?_
      cases hc : checkItems st.lessons items with
      | error e =>
        rw [hc] at hco
        have := checkItems_error_not_created _ _ _ hc
        simp only [Prod.mk.injEq] at hco
        exact absurd hco.2 (this oid t)
      | ok t0 => exact ⟨t0, rfl⟩
    · intro hall
      obtain ⟨t0, hc⟩ := (checkItems_isOk_iff st.lessons items).mpr hall
      simp only [hred, hc]
      exact ⟨_, _, _, rfl⟩
  · intro st2 oid t hco i
    rw [hred] at hco
    cases hc : checkItems st.lessons items with
    | error e =>
      rw [hc] at hco
      have := checkItems_error_not_created _ _ _ hc
      simp only [Prod.mk.injEq] at hco
      exact absurd hco.2 (this oid t)
    | ok t0 =>
      rw [hc] at hco
      simp only [Prod.mk.injEq] at hco
      rw [← hco.1]
      exact spaceOf_decrementSpaces st.lessons items i

/-- Witness for C10 on the duplicate-item booking: both items pass their own
check against space 1, and on success lesson 1's space drops by the sum 2. -/
theorem createOrder_per_item_check_aggregate_decrement_witness :
    ((∃ st2 oid t, createOrder oneSpaceState dupItemsReq = (st2, .created oid t)) ↔
       ∀ it ∈ [(⟨1, 1⟩ : LineItem), ⟨1, 1⟩],
         ∃ l, findLesson oneSpaceState.lessons it.lessonId = some l ∧
           it.quantity ≤ l.space) ∧
    ∀ st2 oid t, createOrder oneSpaceState dupItemsReq = (st2, .created oid t) →
      ∀ i, spaceOf st2.lessons i =
        (spaceOf oneSpaceState.lessons i).map
          (fun s => s - sumQty i [(⟨1, 1⟩ : LineItem), ⟨1, 1⟩]) :=
  createOrder_per_item_check_aggregate_decrement oneSpaceState dupItemsReq
    [⟨1, 1⟩, ⟨1, 1⟩] rfl (by decide) (by decide)

end EduMarket
namespace EduMarket

/-- Codepoints of a string.  String matching in the two search handlers is
modelled at the codepoint level so that JS `toLowerCase` (ASCII range — all
catalog data and the regexes involved are ASCII) is plain arithmetic. -/
def cpOf (s : String) : List Nat :=
  s.data.map Char.toNat

/-- JS `toLowerCase` on one ASCII codepoint: map `A`-`Z` (65-90) to
`a`-`z` (97-122), leave everything else unchanged. -/
def lowerCp (n : Nat) : Nat :=
  if 65 ≤ n ∧ n ≤ 90 then n + 32 else n

/-- `t.isPrefixOf s` on codepoint lists. -/
def isPrefixCp : List Nat → List Nat → Bool
  | [], _ => true
  | _ :: _, [] => false
  | a :: t2, d :: s2 => a == d && isPrefixCp t2 s2

/-- JS `s.includes(t)`: `t` occurs contiguously inside `s`. -/
def includesCp : List Nat → List Nat → Bool
  | [], t => t.isEmpty
  | d :: s2, t => isPrefixCp t (d :: s2) || includesCp s2 t

/-- The filter callback of GET /search (`server-simple.js` lines 189-194)
with `searchTerm = q.toLowerCase()`: subject and location are lowercased and
tested with `includes`, `price.toString()` and `space.toString()` are tested
with `includes` as written (not lowercased). -/
def lessonMatches (q : String) (l : Lesson) : Bool :=
  includesCp ((cpOf l.subject).map lowerCp) ((cpOf q).map lowerCp) ||
  includesCp ((cpOf l.location).map lowerCp) ((cpOf q).map lowerCp) ||
  includesCp (cpOf (toString l.price)) ((cpOf q).map lowerCp) ||
  includesCp (cpOf (toString l.space)) ((cpOf q).map lowerCp)

/-- Outcome of GET /search: 400 for a missing/empty query, otherwise the
`{query, results, count}` payload (query echoed by the caller). -/
inductive SearchResult where
  | badRequest
  | ok (results : List Lesson) (count : Nat)
deriving Repr, DecidableEq

/-- The GET /search handler of `server-simple.js` (lines 176-208): `!q`
(absent or empty query) yields 400, otherwise the catalog is filtered by
`lessonMatches` and returned with its count. -/
def searchLessons (cat : List Lesson) (q : Option String) : SearchResult :=
  match q with
  | none => .badRequest
  | some s =>
    if s.isEmpty then .badRequest
    else
      let results := cat.filter (lessonMatches s)
      .ok results results.length

/-- The spec's search predicate: the term occurs case-insensitively within
`subject` or `location`, or the decimal string form of `price` or `space`
textually contains the term. -/
def specMatches (q : String) (l : Lesson) : Bool :=
  includesCp ((cpOf l.subject).map lowerCp) ((cpOf q).map lowerCp) ||
  includesCp ((cpOf l.location).map lowerCp) ((cpOf q).map lowerCp) ||
  includesCp (cpOf (toString l.price)) (cpOf q) ||
  includesCp (cpOf (toString l.space)) (cpOf q)

/-- Codepoint of a decimal digit (48-57) or of the minus sign (45). -/
def digitDashCp (n : Nat) : Prop :=
  (48 ≤ n ∧ n ≤ 57) ∨ n = 45

theorem lowerCp_eq_iff_of_digitDash (c d : Nat) (hd : digitDashCp d) :
    lowerCp c = d ↔ c = d := by
  unfold lowerCp
  rcases hd with ⟨h1, h2⟩ | h3 <;> split <;> omega

theorem digitChar_digitDash (m : Nat) (h : m < 10) :
    digitDashCp (Nat.digitChar m).toNat := by
  interval_cases m <;> simp [Nat.digitChar, digitDashCp]

theorem toDigitsCore_digitDash (fuel n : Nat) (ds : List Char)
    (hds : ∀ c ∈ ds, digitDashCp c.toNat) :
    ∀ c ∈ Nat.toDigitsCore 10 fuel n ds, digitDashCp c.toNat := by
  induction fuel generalizing n ds with
  | zero => simpa [Nat.toDigitsCore] using hds
  | succ f ih =>
    simp only [Nat.toDigitsCore]
    have hdig : digitDashCp (Nat.digitChar (n % 10)).toNat :=
      digitChar_digitDash _ (Nat.mod_lt _ (by omega))
    split
    · intro c hc
      rcases List.mem_cons.mp hc with rfl | hc2
      · exact hdig
      · exact hds c hc2
    · exact ih _ _ (fun c hc => by
        rcases List.mem_cons.mp hc with rfl | hc2
        · exact hdig
        · exact hds c hc2)

theorem natRepr_digitDash (n : Nat) :
    ∀ c ∈ (Nat.repr n).data, digitDashCp c.toNat := by
  have : (Nat.repr n).data = Nat.toDigitsCore 10 (n + 1) n [] := rfl
  rw [this]
  exact toDigitsCore_digitDash (n + 1) n [] (by simp)

theorem intToString_digitDash (i : Int) :
    ∀ c ∈ (toString i).data, digitDashCp c.toNat := by
  cases i with
  | ofNat m => exact natRepr_digitDash m
  | negSucc m =>
    intro c hc
    have : (toString (Int.negSucc m)).data = '-' :: (Nat.repr (m + 1)).data := by
      show (("-" ++ toString (m + 1)).data) = _
      simp [String.data_append]
      rfl
    rw [this] at hc
    rcases List.mem_cons.mp hc with rfl | hc2
    · right; rfl
    · exact natRepr_digitDash (m + 1) c hc2

end EduMarket
namespace EduMarket

theorem isPrefixCp_map_lowerCp (t ds : List Nat)
    (hds : ∀ n ∈ ds, digitDashCp n) :
    isPrefixCp (t.map lowerCp) ds = isPrefixCp t ds := by
  induction t generalizing ds with
  | nil => simp [isPrefixCp]
  | cons a t2 ih =>
    cases ds with
    | nil => simp [isPrefixCp]
    | cons d s2 =>
      simp only [List.map_cons, isPrefixCp]
      have hd := hds d (List.mem_cons_self d s2)
      have hbeq : (lowerCp a == d) = (a == d) := by
        by_cases h : a = d
        · subst h
          have h2 := (lowerCp_eq_iff_of_digitDash a a hd).mpr rfl
          simp [h2]
        · have h2 : ¬ lowerCp a = d :=
            fun hl => h ((lowerCp_eq_iff_of_digitDash a d hd).mp hl)
          simp [h, h2]
      rw [hbeq, ih s2 (fun n hn => hds n (List.mem_cons_of_mem d hn))]

theorem includesCp_map_lowerCp (s t : List Nat) (hs : ∀ n ∈ s, digitDashCp n) :
    includesCp s (t.map lowerCp) = includesCp s t := by
  induction s with
  | nil => cases t <;> simp [includesCp]
  | cons d s2 ih =>
    simp only [includesCp]
    rw [isPrefixCp_map_lowerCp t (d :: s2) hs,
      ih (fun n hn => hs n (List.mem_cons_of_mem d hn))]

theorem lessonMatches_eq_specMatches (q : String) (l : Lesson) :
    lessonMatches q l = specMatches q l := by
  have hp : ∀ n ∈ cpOf (toString l.price), digitDashCp n := by
    intro n hn
    simp only [cpOf, List.mem_map] at hn
    obtain ⟨c, hc, rfl⟩ := hn
    exact intToString_digitDash l.price c hc
  have hs : ∀ n ∈ cpOf (toString l.space), digitDashCp n := by
    intro n hn
    simp only [cpOf, List.mem_map] at hn
    obtain ⟨c, hc, rfl⟩ := hn
    exact intToString_digitDash l.space c hc
  unfold lessonMatches specMatches
  rw [includesCp_map_lowerCp _ _ hp, includesCp_map_lowerCp _ _ hs]

/-- C5: for every catalog and non-empty term, GET /search answers exactly
the lessons for which the term occurs case-insensitively within subject or
location, or the decimal string form of price or space textually contains
the term; a missing or empty term is answered 400, never with an empty
result set. -/
theorem searchLessons_spec (cat : List Lesson) (q : String)
    (hq : q.isEmpty = false) :
    searchLessons cat (some q) =
      .ok (cat.filter (specMatches q)) (cat.filter (specMatches q)).length ∧
    (∀ l, l ∈ cat.filter (specMatches q) ↔ l ∈ cat ∧ specMatches q l = true) ∧
    searchLessons cat none = .badRequest ∧
    searchLessons cat (some "") = .badRequest := by
  refine ⟨?_, fun l => List.mem_filter, rfl, rfl⟩
  simp only [searchLessons, hq, Bool.false_eq_true, if_false]
  rw [List.filter_congr (fun l _ => lessonMatches_eq_specMatches q l)]

/-- The full Mathematics/Hendon sample lesson of `initializeData`. -/
def mathHendonFull : Lesson :=
  { _id := 1, subject := "Mathematics", location := "Hendon",
    price := 100, space := 5, image := "math-hendon.jpg" }

/-- Witness for C5: the term "math" against a catalog holding the
Mathematics/Hendon lesson. -/
theorem searchLessons_spec_witness :
    searchLessons [mathHendonFull] (some "math") =
      .ok ([mathHendonFull].filter (specMatches "math"))
        ([mathHendonFull].filter (specMatches "math")).length ∧
    (∀ l, l ∈ [mathHendonFull].filter (specMatches "math") ↔
      l ∈ [mathHendonFull] ∧ specMatches "math" l = true) ∧
    searchLessons [mathHendonFull] none = .badRequest ∧
    searchLessons [mathHendonFull] (some "") = .badRequest :=
  searchLessons_spec [mathHendonFull] "math" (by decide)

/-- The filter of the Mongo variant's GET /search (`server.js` lines
303-312): `$or` over `subject`/`location` tested with `RegExp(q, 'i')` —
for a metacharacter-free term this is case-insensitive substring
containment — and `price`/`space` tested with `$regex`.  A Mongo `$regex`
clause applied to a numeric field matches no document (the seeded
`price`/`space` values are numbers), so those two clauses are `false`. -/
def mongoLessonMatches (q : String) (l : Lesson) : Bool :=
  includesCp ((cpOf l.subject).map lowerCp) ((cpOf q).map lowerCp) ||
  includesCp ((cpOf l.location).map lowerCp) ((cpOf q).map lowerCp) ||
  false ||
  false

/-- GET /search of the Mongo variant: filter the lessons collection with
the `$or` document above. -/
def mongoSearch (cat : List Lesson) (q : String) : List Lesson :=
  cat.filter (mongoLessonMatches q)

/-- The numeric-text clauses that only the in-memory backend evaluates
against the field's decimal string. -/
def numericMatches (q : String) (l : Lesson) : Bool :=
  includesCp (cpOf (toString l.price)) ((cpOf q).map lowerCp) ||
  includesCp (cpOf (toString l.space)) ((cpOf q).map lowerCp)

/-- C9 counterexample: searching "100" in a catalog holding the
Mathematics/Hendon lesson (price 100): the in-memory backend returns the
lesson through the price clause, the Mongo backend returns nothing. -/
theorem search_backends_disagree :
    List.filter (lessonMatches "100") [mathHendonFull] = [mathHendonFull] ∧
    mongoSearch [mathHendonFull] "100" = [] := by
  constructor <;> decide

/-- C9 amended: the two search backends agree on the subject/location
clauses; the in-memory backend additionally returns lessons whose price or
space decimal string contains the (lowercased) term, clauses that in the
Mongo backend match nothing because `$regex` never matches a numeric field.
A lesson is in the in-memory result iff it is in the Mongo result or it is
in the catalog and a numeric clause fires. -/
theorem search_backends_relationship (cat : List Lesson) (q : String)
    (l : Lesson) :
    l ∈ cat.filter (lessonMatches q) ↔
      l ∈ mongoSearch cat q ∨ (l ∈ cat ∧ numericMatches q l = true) := by
  simp only [mongoSearch, List.mem_filter, mongoLessonMatches, lessonMatches,
    numericMatches, Bool.or_false, Bool.or_eq_true]
  tauto

end EduMarket
namespace EduMarket

/-- A JSON value as it appears in a PUT /lessons/:id body: number, string,
boolean or null (arrays/objects do not occur in the payloads of interest;
numbers are integral, like every numeric field in the repository). -/
inductive JsVal where
  | num (n : Int)
  | str (s : String)
  | bool (b : Bool)
  | null
deriving Repr, DecidableEq

/-- Fold a digit list into a number, `none` on a non-digit. -/
def parseDigits (cs : List Char) : Option Nat :=
  cs.foldl
    (fun acc c =>
      match acc with
      | none => none
      | some a => if c.isDigit then some (a * 10 + (c.toNat - 48)) else none)
    (some 0)

/-- JS `Number(string)`, `none` for NaN: the empty string is 0, an optional
minus sign followed by digits is a decimal integer, everything else is NaN
(fractional and padded forms are not needed by the claims). -/
def strToNumber (s : String) : Option Int :=
  match s.data with
  | [] => some 0
  | '-' :: rest =>
    if rest.isEmpty then none
    else (parseDigits rest).map (fun n => -(n : Int))
  | cs => (parseDigits cs).map (fun n => (n : Int))

/-- JS `ToNumber` on a body value, `none` for NaN: `null` is 0, booleans
are 0/1, strings parse as decimal integers. -/
def toNumber : JsVal → Option Int
  | .num n => some n
  | .null => some 0
  | .bool b => some (if b then 1 else 0)
  | .str s => strToNumber s

/-- JS `v < 0` with `v` a body value: both operands coerce to numbers, a
NaN comparison is false. -/
def jsLtZero (v : JsVal) : Bool :=
  match toNumber v with
  | some n => decide (n < 0)
  | none => false

/-- The guard `updates.f !== undefined && (isNaN(updates.f) || updates.f < 0)`
of PUT /lessons/:id. -/
def badNumField : Option JsVal → Bool
  | none => false
  | some v => (toNumber v).isNone || jsLtZero v

/-- JS loose equality `l._id == id` between a stored `_id` value and the
route parameter.  The route param is a decimal string, and JS `==` between
a string and a number compares numerically, so the model takes the id as a
`Nat`; `null` is not loosely equal to any number, booleans coerce to 0/1. -/
def jsEqId (v : JsVal) (id : Nat) : Bool :=
  match v with
  | .num n => n == (id : Int)
  | .str s =>
    match strToNumber s with
    | some n => n == (id : Int)
    | none => false
  | .bool b => (if b then (1 : Int) else 0) == (id : Int)
  | .null => false

/-- A lesson record as the in-memory handler actually holds it: after an
`Object.assign` any field may carry any JS value. -/
structure LessonJ where
  _id : JsVal
  subject : JsVal
  location : JsVal
  price : JsVal
  space : JsVal
  image : JsVal
deriving Repr, DecidableEq

/-- The parsed PUT /lessons/:id body: each field may be present or absent.
`Object.assign(lesson, updates)` copies every present field — `_id`
included. -/
structure UpdatePatch where
  _id : Option JsVal := none
  subject : Option JsVal := none
  location : Option JsVal := none
  price : Option JsVal := none
  space : Option JsVal := none
  image : Option JsVal := none
deriving Repr, DecidableEq

/-- `Object.assign(lesson, updates)`: present patch fields overwrite the
lesson's fields, absent ones leave them. -/
def applyAssign (l : LessonJ) (p : UpdatePatch) : LessonJ :=
  { _id := p._id.getD l._id,
    subject := p.subject.getD l.subject,
    location := p.location.getD l.location,
    price := p.price.getD l.price,
    space := p.space.getD l.space,
    image := p.image.getD l.image }

/-- Outcome of PUT /lessons/:id: 404, 400 or 200 with the updated lesson. -/
inductive UpdateResult where
  | notFound
  | badRequest (msg : String)
  | ok (lesson : LessonJ)
deriving Repr, DecidableEq

/-- The PUT /lessons/:id handler of `server-simple.js` (lines 302-350):
`findIndex` by loose id equality (404 when -1), the price and space guards
(400), then `Object.assign` on the found element.  The inner `get?` cannot
miss — `findIndex` just returned the index — and its defensive branch
mirrors that the array access in the source never fails. -/
def updateLesson (cat : List LessonJ) (id : Nat) (p : UpdatePatch) :
    List LessonJ × UpdateResult :=
  match cat.findIdx? (fun l => jsEqId l._id id) with
  | none => (cat, .notFound)
  | some i =>
    if badNumField p.price then
      (cat, .badRequest "Price must be a non-negative number")
    else if badNumField p.space then
      (cat, .badRequest "Space must be a non-negative number")
    else
      match cat.get? i with
      | none => (cat, .notFound)
      | some l => (cat.set i (applyAssign l p), .ok (applyAssign l p))

/-- The Mathematics/Hendon sample lesson as a JS-value record. -/
def demoLessonJ : LessonJ :=
  { _id := .num 1, subject := .str "Mathematics", location := .str "Hendon",
    price := .num 100, space := .num 5, image := .str "math-hendon.jpg" }

/-- One-lesson catalog for the update scenarios. -/
def demoCatalogJ : List LessonJ := [demoLessonJ]

/-- A PUT body `{space: null}`. -/
def nullSpacePatch : UpdatePatch := { space := some .null }

/-- A PUT body `{price: -5}`. -/
def negPricePatch : UpdatePatch := { price := some (.num (-5)) }

/-- The empty PUT body. -/
def emptyPatch : UpdatePatch := {}

/-- A PUT body `{_id: 999}`. -/
def idPatch : UpdatePatch := { _id := some (.num 999) }

/-- C6 counterexample: the body `{space: null}` is NOT rejected — JS
`isNaN(null)` is false (`ToNumber(null) = 0`) and `null < 0` is false — so
"a provided value that is not a finite number draws a validation error and
no mutation" fails: the lesson is overwritten with `space = null` and the
handler answers 200. -/
theorem updateLesson_accepts_null_space :
    updateLesson demoCatalogJ 1 nullSpacePatch =
      ([{ demoLessonJ with space := .null }],
        .ok { demoLessonJ with space := .null }) := by
  decide

/-- C6 amended: an unknown id yields 404 with no mutation; when the id is
found and a provided price or space value coerces (JS ToNumber) to NaN or
compares below zero, the handler answers 400 with no mutation.  A provided
value that is not a number but coerces to a non-negative number (null, a
boolean, a numeric string) is assigned as-is instead of being rejected. -/
theorem updateLesson_error_frame (cat : List LessonJ) (id : Nat)
    (p : UpdatePatch) :
    (List.findIdx? (fun l => jsEqId l._id id) cat = none →
       updateLesson cat id p = (cat, .notFound)) ∧
    (∀ i, List.findIdx? (fun l => jsEqId l._id id) cat = some i →
       (badNumField p.price = true ∨ badNumField p.space = true) →
       (updateLesson cat id p).1 = cat ∧
         ∃ m, (updateLesson cat id p).2 = .badRequest m) := by
  constructor
  · intro h
    simp [updateLesson, h]
  · intro i hi hbad
    rcases hbad with hb | hb
    · simp [updateLesson, hi, hb]
    · by_cases hp : badNumField p.price = true
      · simp [updateLesson, hi, hp]
      · simp [updateLesson, hi, hp, hb]

/-- Witness for the amended C6: id 5 is unknown to the one-lesson catalog
(404, no mutation); `{price: -5}` on lesson 1 draws a 400 with no
mutation. -/
theorem updateLesson_error_frame_witness :
    updateLesson demoCatalogJ 5 emptyPatch = (demoCatalogJ, .notFound) ∧
    ((updateLesson demoCatalogJ 1 negPricePatch).1 = demoCatalogJ ∧
      ∃ m, (updateLesson demoCatalogJ 1 negPricePatch).2 = .badRequest m) :=
  ⟨(updateLesson_error_frame demoCatalogJ 5 emptyPatch).1 (by decide),
   (updateLesson_error_frame demoCatalogJ 1 negPricePatch).2 0 (by decide)
     (Or.inl (by decide))⟩

/-- C7: `server-simple.js` never strips `_id` from the body (`server.js`
does `delete updates._id` exactly to prevent this), so PUT /lessons/1 with
body `{_id: 999}` rewrites the stored lesson's id to 999: the id of an
existing lesson is mutable through the in-memory update endpoint. -/
theorem updateLesson_overwrites_id :
    updateLesson demoCatalogJ 1 idPatch =
      ([{ demoLessonJ with _id := .num 999 }],
        .ok { demoLessonJ with _id := .num 999 }) := by
  decide

end EduMarket
namespace EduMarket

/-- Shared state of the Mongo variant (`server.js`): the lessons collection
and the number of inserted orders. -/
structure MongoState where
  lessons : List Lesson
  ordersCount : Nat
deriving Repr, DecidableEq

/-- Program counter of one in-flight single-item POST /orders of
`server.js`: the handler suspends at each awaited store call, so its atomic
units are the `findOne` (plus the synchronous capacity check on the
returned document), the `insertOne`, and the `updateOne` with
`$inc: {space: -quantity}`. -/
inductive BookPC where
  | start
  | toInsert (total : Int)
  | toDec (total : Int)
  | done (success : Bool)
deriving Repr, DecidableEq

/-- One atomic step of an in-flight booking: `findOne`+check (404/400 abort
or proceed with the accumulated total), `insertOne`, `updateOne` decrement
(`updateFirst`, matching Mongo's single-document `$inc` which applies even
below zero). -/
def bookStep (s : MongoState) (req : LineItem) : BookPC → MongoState × BookPC
  | .start =>
    match findLesson s.lessons req.lessonId with
    | none => (s, .done false)
    | some l =>
      if l.space < req.quantity then (s, .done false)
      else (s, .toInsert (l.price * req.quantity))
  | .toInsert t => ({ s with ordersCount := s.ordersCount + 1 }, .toDec t)
  | .toDec _ =>
    ({ s with lessons := updateFirst s.lessons req.lessonId req.quantity },
      .done true)
  | .done b => (s, .done b)

/-- Interleave two concurrent bookings under a schedule: `true` steps
request A, `false` steps request B. -/
def runTwo (reqA reqB : LineItem) :
    MongoState → BookPC → BookPC → List Bool → MongoState × BookPC × BookPC
  | s, pa, pb, [] => (s, pa, pb)
  | s, pa, pb, c :: rest =>
    if c then
      let step := bookStep s reqA pa
      runTwo reqA reqB step.1 step.2 pb rest
    else
      let step := bookStep s reqB pb
      runTwo reqA reqB step.1 pa step.2 rest

/-- C8: in `server.js` the capacity check and the decrement are separate
awaited store calls, not one indivisible operation.  Under the interleaving
A-find, B-find, A-insert, A-decrement, B-insert, B-decrement of two
bookings of the last unit of lesson 1, both requests pass the check against
space 1, both insert an order, and the final space is -1 — refuting "at
most one succeeds and no interleaving makes space negative". -/
theorem mongo_booking_race_oversells :
    runTwo ⟨1, 1⟩ ⟨1, 1⟩ { lessons := [mathHendonOne], ordersCount := 0 }
        .start .start [true, false, true, true, false, false] =
      ({ lessons := [{ mathHendonOne with space := -1 }], ordersCount := 2 },
        .done true, .done true) := by
  decide

end EduMarket
